import Mathlib

/-!
Verification development for the agrama-v2 conversation-ingestion core:
the JSONL conversation parser (`tools/conversation_processor.py`), the
cache-backed LLM analyzer (`tools/llm_analyzer.py`) and the graph merger
(`tools/llm_enhanced_processor.py`).

Python runtime values produced by `json.loads` are modelled by the
inductive type `Json`; Python's dynamic failures (AttributeError,
TypeError, KeyError) are modelled by `Except Unit`.
-/

/-- A Python value as produced by `json.loads`: null, bool, number
(modelled as a rational; no arithmetic is performed on it, it is only
stored and compared), string, list, or dict (association list with
unique keys, insertion-ordered). -/
inductive Json where
  | null : Json
  | bool (b : Bool) : Json
  | num (q : ℚ) : Json
  | str (s : String) : Json
  | arr (xs : List Json) : Json
  | obj (kvs : List (String × Json)) : Json

/-- The opening-brace character (written via its code point, 123). -/
def obr : Char := Char.ofNat 123

/-- The closing-brace character (code point 125). -/
def cbr : Char := Char.ofNat 125

/-- Whitespace recognised by Python's JSON scanner: space, tab, LF, CR. -/
def isJsonWs (c : Char) : Bool :=
  c = ' ' || c = '\t' || c = '\n' || c = '\r'

/-- Whitespace stripped by Python's `str.strip()` (ASCII part: space, tab,
LF, CR, VT, FF). -/
def isStripWs (c : Char) : Bool :=
  c = ' ' || c = '\t' || c = '\n' || c = '\r' || c = Char.ofNat 11 || c = Char.ofNat 12

/-- `str.strip()` on a character list: drop leading and trailing whitespace. -/
def pyStripList (cs : List Char) : List Char :=
  ((cs.dropWhile isStripWs).reverse.dropWhile isStripWs).reverse

/-- Python's `str.strip()`. -/
def pyStrip (s : String) : String :=
  String.mk (pyStripList s.data)

theorem dropWhile_length_le (p : Char → Bool) (cs : List Char) :
    (cs.dropWhile p).length ≤ cs.length := by
  induction cs with
  | nil => simp [List.dropWhile]
  | cons c rest ih =>
    by_cases h : p c
    · simp only [List.dropWhile, h]
      exact Nat.le_succ_of_le ih
    · simp [List.dropWhile, h]

theorem pyStripList_length_le (cs : List Char) : (pyStripList cs).length ≤ cs.length := by
  unfold pyStripList
  calc ((cs.dropWhile isStripWs).reverse.dropWhile isStripWs).reverse.length
      = ((cs.dropWhile isStripWs).reverse.dropWhile isStripWs).length := List.length_reverse _
    _ ≤ (cs.dropWhile isStripWs).reverse.length := dropWhile_length_le _ _
    _ = (cs.dropWhile isStripWs).length := List.length_reverse _
    _ ≤ cs.length := dropWhile_length_le _ _

theorem pyStrip_length_le (s : String) : (pyStrip s).length ≤ s.length :=
  pyStripList_length_le s.data

/-- Index of the first occurrence of `needle` as a contiguous sublist of
`hay` (Python `str.find` / `in`). -/
def subIdx? (hay needle : List Char) : Option Nat :=
  (List.range (hay.length + 1)).find? (fun i => needle.isPrefixOf (hay.drop i))

/-- Python's `needle in hay` for strings (substring containment). -/
def strContains (hay needle : String) : Bool :=
  (subIdx? hay.data needle.data).isSome

/-- Dict insertion as performed while `json.loads` builds an object:
a repeated key keeps its first position but takes the last value. -/
def insertKV : List (String × Json) → String → Json → List (String × Json)
  | [], k, v => [(k, v)]
  | (k0, v0) :: rest, k, v =>
      if k0 = k then (k0, v) :: rest else (k0, v0) :: insertKV rest k v

/-- Value of a hexadecimal digit character. -/
def hexVal (c : Char) : Option Nat :=
  if '0' ≤ c ∧ c ≤ '9' then some (c.toNat - 48)
  else if 'a' ≤ c ∧ c ≤ 'f' then some (c.toNat - 87)
  else if 'A' ≤ c ∧ c ≤ 'F' then some (c.toNat - 55)
  else none

/-- JSON string body scanner (after the opening quote): handles escapes,
rejects raw control characters, returns the decoded characters and the
remaining input. -/
def jStringAux : Nat → List Char → Option (List Char × List Char)
  | 0, _ => none
  | _, [] => none
  | fuel + 1, c :: rest =>
    if c = '\"' then some ([], rest)
    else if c = '\\' then
      match rest with
      | [] => none
      | e :: rest2 =>
        if e = '\"' ∨ e = '\\' ∨ e = '/' then
          (jStringAux fuel rest2).map (fun p => (e :: p.1, p.2))
        else if e = 'b' then (jStringAux fuel rest2).map (fun p => (Char.ofNat 8 :: p.1, p.2))
        else if e = 'f' then (jStringAux fuel rest2).map (fun p => (Char.ofNat 12 :: p.1, p.2))
        else if e = 'n' then (jStringAux fuel rest2).map (fun p => ('\n' :: p.1, p.2))
        else if e = 'r' then (jStringAux fuel rest2).map (fun p => ('\r' :: p.1, p.2))
        else if e = 't' then (jStringAux fuel rest2).map (fun p => ('\t' :: p.1, p.2))
        else if e = 'u' then
          match rest2 with
          | h1 :: h2 :: h3 :: h4 :: rest3 =>
            match hexVal h1, hexVal h2, hexVal h3, hexVal h4 with
            | some a, some b, some c3, some d =>
              let n := ((a * 16 + b) * 16 + c3) * 16 + d
              if h : n.isValidChar then
                (jStringAux fuel rest3).map (fun p => (Char.ofNatAux n h :: p.1, p.2))
              else none
            | _, _, _, _ => none
          | _ => none
        else none
    else if c.toNat < 32 then none
    else (jStringAux fuel rest).map (fun p => (c :: p.1, p.2))

/-- Digits to a natural number. -/
def digitsToNat (ds : List Char) : Nat :=
  ds.foldl (fun a c => a * 10 + (c.toNat - 48)) 0

/-- JSON number scanner: optional minus, integer part without leading
zeros, optional fraction, optional exponent; value as a rational. -/
def jNumber (cs : List Char) : Option (ℚ × List Char) :=
  let (neg, cs1) : Bool × List Char :=
    match cs with
    | '-' :: r => (true, r)
    | _ => (false, cs)
  let ds := cs1.takeWhile Char.isDigit
  if ds.isEmpty then none
  else if ds.length > 1 && (ds.head? == some '0') then none
  else
    let cs2 := cs1.drop ds.length
    let (fds, cs3) : List Char × List Char :=
      match cs2 with
      | '.' :: r => (r.takeWhile Char.isDigit, r.drop (r.takeWhile Char.isDigit).length)
      | _ => ([], cs2)
    if (cs2.head? == some '.') && fds.isEmpty then none
    else
      let (eok, esign, eds, cs4) : Bool × Bool × List Char × List Char :=
        match cs3 with
        | 'e' :: '+' :: r => (!(r.takeWhile Char.isDigit).isEmpty, false, r.takeWhile Char.isDigit, r.drop (r.takeWhile Char.isDigit).length)
        | 'e' :: '-' :: r => (!(r.takeWhile Char.isDigit).isEmpty, true, r.takeWhile Char.isDigit, r.drop (r.takeWhile Char.isDigit).length)
        | 'e' :: r => (!(r.takeWhile Char.isDigit).isEmpty, false, r.takeWhile Char.isDigit, r.drop (r.takeWhile Char.isDigit).length)
        | 'E' :: '+' :: r => (!(r.takeWhile Char.isDigit).isEmpty, false, r.takeWhile Char.isDigit, r.drop (r.takeWhile Char.isDigit).length)
        | 'E' :: '-' :: r => (!(r.takeWhile Char.isDigit).isEmpty, true, r.takeWhile Char.isDigit, r.drop (r.takeWhile Char.isDigit).length)
        | 'E' :: r => (!(r.takeWhile Char.isDigit).isEmpty, false, r.takeWhile Char.isDigit, r.drop (r.takeWhile Char.isDigit).length)
        | _ => (true, false, [], cs3)
      if !eok then none
      else
        let mant : ℚ := (digitsToNat ds * 10 ^ fds.length + digitsToNat fds : ℕ)
        let base : ℚ := mant / (10 : ℚ) ^ fds.length
        let expo : ℤ := if esign then -(digitsToNat eds : ℤ) else (digitsToNat eds : ℤ)
        let v : ℚ := base * (10 : ℚ) ^ expo
        some (if neg then -v else v, cs4)

mutual

/-- JSON value parser (embedding of `json.loads`'s grammar), fuelled. -/
def jValue : Nat → List Char → Option (Json × List Char)
  | 0, _ => none
  | fuel + 1, cs =>
    match cs.dropWhile isJsonWs with
    | [] => none
    | c :: rest =>
      if c = obr then
        match rest.dropWhile isJsonWs with
        | c2 :: rest2 =>
          if c2 = cbr then some (.obj [], rest2)
          else (jMembers fuel (rest.dropWhile isJsonWs) []).map (fun p => (.obj p.1, p.2))
        | [] => none
      else if c = '[' then
        match rest.dropWhile isJsonWs with
        | c2 :: rest2 =>
          if c2 = ']' then some (.arr [], rest2)
          else (jItems fuel (rest.dropWhile isJsonWs) []).map (fun p => (.arr p.1, p.2))
        | [] => none
      else if c = '\"' then
        (jStringAux (fuel + 1) rest).map (fun p => (.str (String.mk p.1), p.2))
      else if c = 't' then
        if ("rue".data).isPrefixOf rest then some (.bool true, rest.drop 3) else none
      else if c = 'f' then
        if ("alse".data).isPrefixOf rest then some (.bool false, rest.drop 4) else none
      else if c = 'n' then
        if ("ull".data).isPrefixOf rest then some (.null, rest.drop 3) else none
      else if c = '-' ∨ c.isDigit then
        (jNumber (c :: rest)).map (fun p => (.num p.1, p.2))
      else none

/-- Object members parser: `"key" : value (, ...)* closing-brace`. -/
def jMembers : Nat → List Char → List (String × Json) → Option (List (String × Json) × List Char)
  | 0, _, _ => none
  | fuel + 1, cs, acc =>
    match cs with
    | '\"' :: rest =>
      match jStringAux (fuel + 1) rest with
      | none => none
      | some (key, cs2) =>
        match cs2.dropWhile isJsonWs with
        | ':' :: cs3 =>
          match jValue fuel cs3 with
          | none => none
          | some (v, cs4) =>
            let acc2 := insertKV acc (String.mk key) v
            match cs4.dropWhile isJsonWs with
            | c :: cs5 =>
              if c = cbr then some (acc2, cs5)
              else if c = ',' then jMembers fuel (cs5.dropWhile isJsonWs) acc2
              else none
            | [] => none
        | _ => none
    | _ => none

/-- Array items parser: `value (, value)* ]`. -/
def jItems : Nat → List Char → List Json → Option (List Json × List Char)
  | 0, _, _ => none
  | fuel + 1, cs, acc =>
    match jValue fuel cs with
    | none => none
    | some (v, cs2) =>
      match cs2.dropWhile isJsonWs with
      | c :: cs3 =>
        if c = ']' then some (acc ++ [v], cs3)
        else if c = ',' then jItems fuel cs3 (acc ++ [v])
        else none
      | [] => none

end

/-- `json.loads`: parse a whole string as one JSON value (surrounding
whitespace allowed, nothing may remain). -/
def jsonParse (s : String) : Option Json :=
  match jValue (2 * s.length + 10) s.data with
  | some (j, rest) => if (rest.dropWhile isJsonWs).isEmpty then some j else none
  | none => none

/-! ## Python dynamic operations on `Json` values -/

/-- Association-list lookup for dict values (first match; keys are unique
by construction of `insertKV`). -/
def lookupKey (kvs : List (String × Json)) (k : String) : Option Json :=
  (kvs.find? (fun kv => kv.1 == k)).map (fun kv => kv.2)

/-- Python `d.get(k)`: `None` when missing; AttributeError (modelled as
`.error`) when the receiver is not a dict. -/
def pyGet (j : Json) (k : String) : Except Unit (Option Json) :=
  match j with
  | .obj kvs => .ok (lookupKey kvs k)
  | _ => .error ()

/-- Python `d.get(k, default)`. -/
def pyGetD (j : Json) (k : String) (d : Json) : Except Unit Json :=
  (pyGet j k).map (fun o => o.getD d)

/-- Python `k in j` for a string `k`: key test on dicts, substring test on
strings, membership (string equality) on lists; TypeError otherwise. -/
def pyContains (k : String) (j : Json) : Except Unit Bool :=
  match j with
  | .obj kvs => .ok (kvs.any (fun kv => kv.1 == k))
  | .str s => .ok (strContains s k)
  | .arr xs => .ok (xs.any (fun x => match x with | .str t => t == k | _ => false))
  | _ => .error ()

/-- Python `j[k]` with a string subscript: dict lookup (KeyError when the
key is missing), TypeError on any other receiver. -/
def pyIndex (j : Json) (k : String) : Except Unit Json :=
  match j with
  | .obj kvs =>
    match lookupKey kvs k with
    | some v => .ok v
    | none => .error ()
  | _ => .error ()

/-- Python iteration: lists yield elements, strings yield one-character
strings, dicts yield their keys; TypeError otherwise. -/
def pyIter (j : Json) : Except Unit (List Json) :=
  match j with
  | .arr xs => .ok xs
  | .str s => .ok (s.data.map (fun c => .str (String.mk [c])))
  | .obj kvs => .ok (kvs.map (fun kv => .str kv.1))
  | _ => .error ()

/-- Python truthiness of a JSON value. -/
def pyTruthy : Json → Bool
  | .null => false
  | .bool b => b
  | .num q => decide (q ≠ 0)
  | .str s => s ≠ ""
  | .arr xs => !xs.isEmpty
  | .obj kvs => !kvs.isEmpty

/-- Python `+` restricted to JSON values: string/list concatenation and
numeric addition (booleans coerce to ints); TypeError otherwise. -/
def pyAdd : Json → Json → Except Unit Json
  | .str a, .str b => .ok (.str (a ++ b))
  | .num a, .num b => .ok (.num (a + b))
  | .arr a, .arr b => .ok (.arr (a ++ b))
  | .bool a, .bool b => .ok (.num ((if a then 1 else 0) + (if b then 1 else 0)))
  | .num a, .bool b => .ok (.num (a + if b then 1 else 0))
  | .bool a, .num b => .ok (.num ((if a then 1 else 0) + b))
  | _, _ => .error ()

/-- Python `v == ""`: true only for the empty string (no coercion). -/
def isEmptyStr : Json → Bool
  | .str s => s == ""
  | _ => false

/-! ## `tools/conversation_processor.py` -/

namespace ConvProc

/-- `ConversationMessage` dataclass. Fields that the source merely copies
out of the record keep the dynamic `Json` type; `message_type` and
`content` are the strings the source constructs. -/
structure ConversationMessage where
  uuid : Json
  timestamp : Json
  message_type : String
  content : String
  tool_uses : List Json
  tool_results : List Json
  session_id : Json
  parent_uuid : Option Json
  cwd : Json
  git_branch : Json

/-- `ConversationSession` dataclass (statistics filled in by
`parse_jsonl_file`). -/
structure ConversationSession where
  session_id : Json
  project_name : String
  messages : List ConversationMessage
  file_path : String
  total_messages : Nat
  user_messages : Nat
  assistant_messages : Nat
  tool_uses : Nat

/-- `item.get('type') == s` for a content block (Python `==` against a
string is true only for that very string). -/
def isTypeTag (kvs : List (String × Json)) (s : String) : Bool :=
  match lookupKey kvs "type" with
  | some (.str t) => t == s
  | _ => false

/-- One iteration of the content-block loop (`_parse_message` lines
132-147): text blocks are appended to `content` (TypeError when the
`text` field is not a string), `tool_use` / `tool_result` blocks are
collected as dicts, non-dict items are skipped. -/
def contentStep (acc : String × List Json × List Json) (item : Json) :
    Except Unit (String × List Json × List Json) :=
  match item with
  | .obj kvs =>
    if isTypeTag kvs "text" then
      match (lookupKey kvs "text").getD (.str "") with
      | .str t => .ok (acc.1 ++ t, acc.2.1, acc.2.2)
      | _ => .error ()
    else if isTypeTag kvs "tool_use" then
      .ok (acc.1,
           acc.2.1 ++ [.obj [("name", (lookupKey kvs "name").getD (.str "")),
                             ("input", (lookupKey kvs "input").getD (.obj [])),
                             ("id", (lookupKey kvs "id").getD (.str ""))]],
           acc.2.2)
    else if isTypeTag kvs "tool_result" then
      .ok (acc.1, acc.2.1,
           acc.2.2 ++ [.obj [("content", (lookupKey kvs "content").getD (.str "")),
                             ("tool_use_id", (lookupKey kvs "tool_use_id").getD (.str "")),
                             ("is_error", (lookupKey kvs "is_error").getD (.bool false))]])
    else .ok acc
  | _ => .ok acc

/-- `_parse_message` lines 124-147: extract `content`, `tool_uses` and the
inline `tool_results` from the record's `message` field. -/
def extractMsgContent (dataKvs : List (String × Json)) :
    Except Unit (String × List Json × List Json) :=
  match lookupKey dataKvs "message" with
  | none => .ok ("", [], [])
  | some msg => do
    let hasContent ← pyContains "content" msg
    if hasContent then
      let c ← pyIndex msg "content"
      match c with
      | .str s => .ok (s, [], [])
      | .arr items => items.foldlM contentStep ("", [], [])
      | _ => .ok ("", [], [])
    else
      .ok ("", [], [])

/-- `_parse_message` lines 150-155: the side-channel `toolUseResult`
record folded into one synthetic `tool_results` entry. -/
def sideChannelEntry (dataKvs : List (String × Json)) : Except Unit (Option Json) :=
  match lookupKey dataKvs "toolUseResult" with
  | none => .ok none
  | some tr => do
    let so ← pyGetD tr "stdout" (.str "")
    let se ← pyGetD tr "stderr" (.str "")
    let c ← pyAdd so se
    let seAgain ← pyGetD tr "stderr" (.str "")
    let itr ← pyGetD tr "interrupted" (.bool false)
    .ok (some (.obj [("content", c),
                     ("is_error", .bool (!isEmptyStr seAgain)),
                     ("interrupted", itr)]))

/-- `_parse_message` body inside its `try`: `.ok none` models the clean
`return None` for non-conversation records, `.error` models an exception
(caught by the enclosing handler, which also returns `None`). -/
def parseMessageE (data : Json) : Except Unit (Option ConversationMessage) := do
  let ty ← pyGet data "type"
  match data, ty with
  | .obj kvs, some (.str t) =>
    if t == "user" || t == "assistant" then do
      let (content, tool_uses, inline_results) ← extractMsgContent kvs
      let syn ← sideChannelEntry kvs
      .ok (some {
        uuid := (lookupKey kvs "uuid").getD (.str ""),
        timestamp := (lookupKey kvs "timestamp").getD (.str ""),
        message_type := t,
        content := pyStrip content,
        tool_uses := tool_uses,
        tool_results := inline_results ++ syn.toList,
        session_id := (lookupKey kvs "sessionId").getD (.str ""),
        parent_uuid := lookupKey kvs "parentUuid",
        cwd := (lookupKey kvs "cwd").getD (.str ""),
        git_branch := (lookupKey kvs "gitBranch").getD (.str "") })
    else .ok none
  | _, _ => .ok none

/-- `_parse_message`: any exception is caught, reported, and turned into
`None`. -/
def parseMessage (data : Json) : Option ConversationMessage :=
  match parseMessageE data with
  | .ok r => r
  | .error _ => none

/-- One input line as seen by the loop in `parse_jsonl_file`: strip it,
skip it when blank, otherwise `json.loads` it (`none` = skipped, either
blank or a reported JSON decode error). -/
def jsonOfLine (line : String) : Option Json :=
  let t := pyStrip line
  if t == "" then none else jsonParse t

/-- The accumulation loop of `parse_jsonl_file` (lines 64-79): collect
parsed messages in file order, remembering the first truthy
`session_id`. -/
def parseLoop : List String → List ConversationMessage → Json →
    (List ConversationMessage × Json)
  | [], msgs, sid => (msgs, sid)
  | l :: rest, msgs, sid =>
    match jsonOfLine l with
    | none => parseLoop rest msgs sid
    | some data =>
      match parseMessage data with
      | none => parseLoop rest msgs sid
      | some m =>
        parseLoop rest (msgs ++ [m]) (if pyTruthy sid then sid else m.session_id)

/-- `_extract_project_name`. -/
def extract_project_name (parts : List String) : String :=
  if parts.contains "agrama" then "agrama"
  else if parts.contains "agentprobe" then "agentprobe"
  else "unknown"

/-- `parse_jsonl_file`: `parts` are the path components, `stem` the file
stem, `fp` the printed path, `lines` the file's lines. -/
def parse_jsonl_file (parts : List String) (stem : String) (fp : String)
    (lines : List String) : Option ConversationSession :=
  if (parseLoop lines [] .null).1.isEmpty then none
  else
    some {
      session_id := if pyTruthy (parseLoop lines [] .null).2
                    then (parseLoop lines [] .null).2 else .str stem,
      project_name := extract_project_name parts,
      messages := (parseLoop lines [] .null).1,
      file_path := fp,
      total_messages := (parseLoop lines [] .null).1.length,
      user_messages := (parseLoop lines [] .null).1.countP (fun m => m.message_type == "user"),
      assistant_messages := (parseLoop lines [] .null).1.countP (fun m => m.message_type == "assistant"),
      tool_uses := ((parseLoop lines [] .null).1.map (fun m => m.tool_uses.length)).sum }

end ConvProc

/-! ## Structural equality of `Json` values (Python `==`, used by `set`) -/

mutual

/-- Structural equality of JSON values (Python `==`). -/
def Json.beq : Json → Json → Bool
  | .null, .null => true
  | .bool a, .bool b => a == b
  | .num a, .num b => a == b
  | .str a, .str b => a == b
  | .arr a, .arr b => Json.beqList a b
  | .obj a, .obj b => Json.beqKVList a b
  | _, _ => false

/-- Elementwise equality of JSON lists. -/
def Json.beqList : List Json → List Json → Bool
  | [], [] => true
  | x :: xs, y :: ys => Json.beq x y && Json.beqList xs ys
  | _, _ => false

/-- Elementwise equality of JSON key/value lists. -/
def Json.beqKVList : List (String × Json) → List (String × Json) → Bool
  | [], [] => true
  | (k1, v1) :: xs, (k2, v2) :: ys => k1 == k2 && Json.beq v1 v2 && Json.beqKVList xs ys
  | _, _ => false

end

/-- `s.add(x)` on a Python set, modelled as an insertion-ordered list
without duplicates (the unspecified iteration order of a hash set is
abstracted to insertion order; no claim depends on it). -/
def addToSet (l : List Json) (x : Json) : List Json :=
  if l.any (fun y => Json.beq y x) then l else l ++ [x]

/-! ## `tools/llm_enhanced_processor.py` -/

namespace LLMEnhanced

/-- `CodeEntity` dataclass (fields per the tool input schema). -/
structure CodeEntity where
  name : String
  type : String
  description : String
  file_path : Option String := none
  line_number : Option Int := none
  language : Option String := none

/-- `Relationship` dataclass of the enhanced processor. -/
structure Relationship where
  source : String
  target : String
  type : String
  confidence : ℚ
  context : String

/-- `GraphData` dataclass; `metadata` is the dict the analyzer built. -/
structure GraphData where
  entities : List CodeEntity
  relationships : List Relationship
  metadata : List (String × Json)

/-- Inner entity step of `merge_graphs` (lines 283-287): append the
entity and record its name only when the name is not yet present. -/
def mergeEntityStep (acc : List CodeEntity × List String) (e : CodeEntity) :
    List CodeEntity × List String :=
  if e.name ∈ acc.2 then acc else (acc.1 ++ [e], acc.2 ++ [e.name])

/-- Per-graph step of the collection loop of `merge_graphs`
(lines 282-289). -/
def mergeStep (acc : (List CodeEntity × List String) × List Relationship × List Json)
    (g : GraphData) : (List CodeEntity × List String) × List Relationship × List Json :=
  (g.entities.foldl mergeEntityStep acc.1,
   acc.2.1 ++ g.relationships,
   addToSet acc.2.2 ((lookupKey g.metadata "project_name").getD (.str "unknown")))

/-- `merge_graphs` (the pure computation; `now` stands for
`str(datetime.now())`, the file write is outside the model). -/
def merge_graphs (now : String) (graphs : List GraphData) : GraphData :=
  let r := graphs.foldl mergeStep (([], []), [], [])
  { entities := r.1.1,
    relationships := r.2.1,
    metadata := [("total_sessions", .num graphs.length),
                 ("projects", .arr r.2.2),
                 ("merge_timestamp", .str now),
                 ("total_entities", .num r.1.1.length),
                 ("total_relationships", .num r.2.1.length)] }

theorem mergeFold_entities (gs : List GraphData)
    (acc : (List CodeEntity × List String) × List Relationship × List Json) :
    (gs.foldl mergeStep acc).1 =
      ((gs.map GraphData.entities).join).foldl mergeEntityStep acc.1 := by
  induction gs generalizing acc with
  | nil => simp
  | cons g gs ih =>
    rw [List.foldl_cons, ih]
    simp only [List.map_cons, List.join, List.flatten_cons, List.foldl_append]
    rfl

theorem mergeFold_relationships (gs : List GraphData)
    (acc : (List CodeEntity × List String) × List Relationship × List Json) :
    (gs.foldl mergeStep acc).2.1 =
      acc.2.1 ++ (gs.map GraphData.relationships).join := by
  induction gs generalizing acc with
  | nil => simp
  | cons g gs ih =>
    simp only [List.foldl_cons, List.map_cons, List.join]
    rw [ih]
    simp [mergeStep]

theorem mergeEntityFold_filter (n : String) (l : List CodeEntity)
    (acc : List CodeEntity × List String)
    (hinv : ∀ m : String, m ∈ acc.2 ↔ ∃ a ∈ acc.1, a.name = m) :
    ((l.foldl mergeEntityStep acc).1).filter (fun e => e.name == n) =
      acc.1.filter (fun e => e.name == n) ++
        (if n ∈ acc.2 then [] else ((l.filter (fun e => e.name == n)).take 1)) := by
  induction l generalizing acc with
  | nil => simp
  | cons e es ih =>
    simp only [List.foldl_cons, mergeEntityStep]
    by_cases hseen : e.name ∈ acc.2
    · simp only [if_pos hseen]
      rw [ih acc hinv]
      by_cases hn : e.name = n
      · subst hn
        simp [if_pos hseen, List.filter_cons]
      · have : (e.name == n) = false := by simp [hn]
        simp [List.filter_cons, this]
    · simp only [if_neg hseen]
      have hinv2 : ∀ m : String, m ∈ acc.2 ++ [e.name] ↔
          ∃ a ∈ acc.1 ++ [e], a.name = m := by
        intro m
        simp only [List.mem_append, List.mem_singleton]
        constructor
        · rintro (hm | hm)
          · obtain ⟨a, ha, hname⟩ := (hinv m).mp hm
            exact ⟨a, Or.inl ha, hname⟩
          · exact ⟨e, Or.inr rfl, hm.symm⟩
        · rintro ⟨a, (ha | ha), hname⟩
          · exact Or.inl ((hinv m).mpr ⟨a, ha, hname⟩)
          · subst ha
            exact Or.inr hname.symm
      rw [ih (acc.1 ++ [e], acc.2 ++ [e.name]) hinv2]
      by_cases hn : e.name = n
      · subst hn
        have hnone : acc.1.filter (fun a => a.name == e.name) = [] := by
          rw [List.filter_eq_nil_iff]
          intro a ha hcontra
          rw [beq_iff_eq] at hcontra
          exact hseen ((hinv e.name).mpr ⟨a, ha, hcontra⟩)
        have htrue : e.name ∈ acc.2 ++ [e.name] :=
          List.mem_append.mpr (Or.inr (List.mem_singleton.mpr rfl))
        rw [List.filter_append, hnone, if_pos htrue, if_neg hseen]
        simp [List.filter_cons]
      · have hb : (e.name == n) = false := by simp [hn]
        have hmem : (n ∈ acc.2 ++ [e.name]) ↔ n ∈ acc.2 := by
          simp only [List.mem_append, List.mem_singleton]
          constructor
          · rintro (h | h)
            · exact h
            · exact absurd h.symm hn
          · exact Or.inl
        rw [List.filter_append, if_congr hmem rfl rfl]
        simp [List.filter_cons, hb]

/-- C2 — `merge_graphs` keeps, for each entity name, exactly the first
entity encountered with that name in input order: filtering the merged
entities by a name gives the first element (if any) of the filtered
concatenation of the inputs, in input order. Later duplicates — whatever
their attributes — are dropped. -/
theorem merge_graphs_first_seen_wins (now : String) (gs : List GraphData) (n : String) :
    (merge_graphs now gs).entities.filter (fun e => e.name == n) =
      (((gs.map GraphData.entities).join).filter (fun e => e.name == n)).take 1 := by
  show ((gs.foldl mergeStep (([], []), [], [])).1.1.filter (fun e => e.name == n)) = _
  rw [mergeFold_entities]
  have h := mergeEntityFold_filter n ((gs.map GraphData.entities).join) ([], [])
    (by intro m; simp)
  simpa using h

/-- C4 — `merge_graphs` concatenates the relationships of its inputs in
input order, with no deduplication and no rejection; in particular the
output has exactly the sum of the input counts. -/
theorem merge_graphs_relationships_concat (now : String) (gs : List GraphData) :
    (merge_graphs now gs).relationships = (gs.map GraphData.relationships).join ∧
      (merge_graphs now gs).relationships.length =
        ((gs.map (fun g => g.relationships.length)).sum) := by
  have h : (merge_graphs now gs).relationships = (gs.map GraphData.relationships).join := by
    show (gs.foldl mergeStep (([], []), [], [])).2.1 = _
    rw [mergeFold_relationships]
    rfl
  refine ⟨h, ?_⟩
  rw [h, List.length_join, List.map_map]
  rfl

end LLMEnhanced

/-! ## Conversation-processor theorems -/

theorem except_bind_ok {α β : Type} (a : α) (f : α → Except Unit β) :
    (Except.ok a >>= f) = f a := rfl

theorem except_bind_error {α β : Type} (e : Unit) (f : α → Except Unit β) :
    ((Except.error e : Except Unit α) >>= f) = Except.error e := rfl

namespace ConvProc

theorem parseLoop_messages (lines : List String) (msgs : List ConversationMessage) (sid : Json) :
    (parseLoop lines msgs sid).1 =
      msgs ++ lines.filterMap (fun l => (jsonOfLine l).bind parseMessage) := by
  induction lines generalizing msgs sid with
  | nil => simp [parseLoop]
  | cons l rest ih =>
    cases hj : jsonOfLine l with
    | none => simp [parseLoop, hj, ih]
    | some data =>
      cases hm : parseMessage data with
      | none => simp [parseLoop, hj, hm, ih]
      | some m => simp [parseLoop, hj, hm, ih]

theorem parseMessage_type (data : Json) (m : ConversationMessage)
    (h : parseMessage data = some m) :
    m.message_type = "user" ∨ m.message_type = "assistant" := by
  cases data with
  | obj kvs =>
    cases hty : lookupKey kvs "type" with
    | none => simp [parseMessage, parseMessageE, pyGet, except_bind_ok, except_bind_error, hty] at h
    | some j =>
      cases j with
      | str t =>
        by_cases hua : t = "user" ∨ t = "assistant"
        · cases hec : extractMsgContent kvs with
          | error e => simp [parseMessage, parseMessageE, pyGet, except_bind_ok, except_bind_error, hty, hua, hec] at h
          | ok triple =>
            cases hsc : sideChannelEntry kvs with
            | error e =>
              simp [parseMessage, parseMessageE, pyGet, except_bind_ok, except_bind_error, hty, hua, hec, hsc] at h
            | ok syn =>
              simp only [parseMessage, parseMessageE, pyGet, except_bind_ok, hty, hec, hsc] at h
              rw [if_pos (by simpa using hua)] at h
              rw [Option.some.injEq] at h
              subst h
              simpa using hua
        · simp [parseMessage, parseMessageE, pyGet, except_bind_ok, except_bind_error, hty, hua] at h
      | null => simp [parseMessage, parseMessageE, pyGet, except_bind_ok, except_bind_error, hty] at h
      | bool b => simp [parseMessage, parseMessageE, pyGet, except_bind_ok, except_bind_error, hty] at h
      | num q => simp [parseMessage, parseMessageE, pyGet, except_bind_ok, except_bind_error, hty] at h
      | arr xs => simp [parseMessage, parseMessageE, pyGet, except_bind_ok, except_bind_error, hty] at h
      | obj kvs2 => simp [parseMessage, parseMessageE, pyGet, except_bind_ok, except_bind_error, hty] at h
  | null => simp [parseMessage, parseMessageE, pyGet, except_bind_ok, except_bind_error] at h
  | bool b => simp [parseMessage, parseMessageE, pyGet, except_bind_ok, except_bind_error] at h
  | num q => simp [parseMessage, parseMessageE, pyGet, except_bind_ok, except_bind_error] at h
  | str s => simp [parseMessage, parseMessageE, pyGet, except_bind_ok, except_bind_error] at h
  | arr xs => simp [parseMessage, parseMessageE, pyGet, except_bind_ok, except_bind_error] at h

theorem countP_user_assistant (l : List ConversationMessage)
    (h : ∀ m ∈ l, m.message_type = "user" ∨ m.message_type = "assistant") :
    l.countP (fun m => m.message_type == "user") +
      l.countP (fun m => m.message_type == "assistant") = l.length := by
  induction l with
  | nil => simp
  | cons m rest ih =>
    have hm := h m (List.mem_cons_self _ _)
    have hrest := ih (fun x hx => h x (List.mem_cons_of_mem _ hx))
    rw [List.countP_cons, List.countP_cons, List.length_cons]
    rcases hm with hu | ha
    · have h1 : (m.message_type == "user") = true := by rw [hu]; decide
      have h2 : (m.message_type == "assistant") = false := by rw [hu]; decide
      rw [h1, h2]
      norm_num
      omega
    · have h1 : (m.message_type == "user") = false := by rw [ha]; decide
      have h2 : (m.message_type == "assistant") = true := by rw [ha]; decide
      rw [h1, h2]
      norm_num
      omega

/-- C5 — every `ConversationSession` built by `parse_jsonl_file`
satisfies `user_messages + assistant_messages = total_messages`,
`total_messages = |messages|`, and `tool_uses = Σ |m.tool_uses|`. -/
theorem session_aggregate_consistency (parts : List String) (stem fp : String)
    (lines : List String) (s : ConversationSession)
    (h : parse_jsonl_file parts stem fp lines = some s) :
    s.user_messages + s.assistant_messages = s.total_messages ∧
      s.total_messages = s.messages.length ∧
      s.tool_uses = (s.messages.map (fun m => m.tool_uses.length)).sum := by
  unfold parse_jsonl_file at h
  by_cases hemp : (parseLoop lines [] .null).1.isEmpty
  · rw [if_pos hemp] at h; cases h
  · rw [if_neg hemp] at h
    cases h
    refine ⟨?_, rfl, rfl⟩
    apply countP_user_assistant
    intro m hm
    rw [parseLoop_messages] at hm
    simp only [List.nil_append, List.mem_filterMap] at hm
    obtain ⟨l, -, hbind⟩ := hm
    cases hj : jsonOfLine l with
    | none => rw [hj] at hbind; cases hbind
    | some data =>
      rw [hj] at hbind
      exact parseMessage_type data m hbind

/-- A one-line demo file used by witnesses (a `user` record with a plain
string body). -/
def demoLines : List String :=
  ["\x7b\"type\":\"user\",\"sessionId\":\"s1\",\"message\":\x7b\"content\":\"hi\"\x7d\x7d"]

/-- Fallback session used to extract the parsed value in witnesses. -/
def fallbackSession : ConversationSession :=
  { session_id := .null, project_name := "", messages := [], file_path := "",
    total_messages := 0, user_messages := 0, assistant_messages := 0, tool_uses := 0 }

/-- Witness for C5: the aggregate identities hold on a concretely parsed
session. -/
theorem session_aggregate_consistency_witness :
    (((parse_jsonl_file [] "f" "f" demoLines).getD fallbackSession).user_messages +
        ((parse_jsonl_file [] "f" "f" demoLines).getD fallbackSession).assistant_messages =
      ((parse_jsonl_file [] "f" "f" demoLines).getD fallbackSession).total_messages) ∧
      ((parse_jsonl_file [] "f" "f" demoLines).getD fallbackSession).total_messages =
        ((parse_jsonl_file [] "f" "f" demoLines).getD fallbackSession).messages.length ∧
      ((parse_jsonl_file [] "f" "f" demoLines).getD fallbackSession).tool_uses =
        (((parse_jsonl_file [] "f" "f" demoLines).getD fallbackSession).messages.map
          (fun m => m.tool_uses.length)).sum :=
  session_aggregate_consistency [] "f" "f" demoLines
    ((parse_jsonl_file [] "f" "f" demoLines).getD fallbackSession) rfl

end ConvProc

namespace ConvProc

/-- Reading a field of the side-channel record as Python does
(`tr.get(k, '')` followed by use as a string): the string value, the
default `""` when absent, an error when `tr` is not a dict or the value
is not a string. -/
def strField (tr : Json) (k : String) : Except Unit String := do
  let v ← pyGetD tr k (.str "")
  match v with
  | .str s => .ok s
  | _ => .error ()

theorem strField_ok {tr : Json} {k : String} {s : String} (h : strField tr k = .ok s) :
    pyGetD tr k (.str "") = .ok (.str s) := by
  unfold strField at h
  cases hv : pyGetD tr k (.str "") with
  | error e => rw [hv, except_bind_error] at h; cases h
  | ok v =>
    rw [hv, except_bind_ok] at h
    cases v with
    | str t => cases h; rfl
    | null => cases h
    | bool b => cases h
    | num q => cases h
    | arr xs => cases h
    | obj kvs => cases h

theorem sideChannelEntry_eq {kvs : List (String × Json)} {tr itr : Json} {so se : String}
    (htr : lookupKey kvs "toolUseResult" = some tr)
    (hso : pyGetD tr "stdout" (.str "") = .ok (.str so))
    (hse : pyGetD tr "stderr" (.str "") = .ok (.str se))
    (hitr : pyGetD tr "interrupted" (.bool false) = .ok itr) :
    sideChannelEntry kvs =
      .ok (some (.obj [("content", .str (so ++ se)),
                       ("is_error", .bool (!(se == ""))),
                       ("interrupted", itr)])) := by
  unfold sideChannelEntry
  rw [htr]
  simp [except_bind_ok, hso, hse, hitr, pyAdd, isEmptyStr]

/-- C8 — a `user`/`assistant` record carrying a `toolUseResult`
side-channel object yields a Message whose last `tool_results` entry is
the synthetic one: `content` is stdout ++ stderr (each defaulting to
`""` when absent), `is_error` is true iff the captured stderr is
non-empty, and `interrupted` is the record's value (defaulting to
false). -/
theorem side_channel_folded_into_tool_results (kvs : List (String × Json))
    (m : ConversationMessage) (tr itr : Json) (so se : String)
    (hparse : parseMessage (.obj kvs) = some m)
    (htr : lookupKey kvs "toolUseResult" = some tr)
    (hso : strField tr "stdout" = .ok so)
    (hse : strField tr "stderr" = .ok se)
    (hitr : pyGetD tr "interrupted" (.bool false) = .ok itr) :
    m.tool_results.getLast? =
      some (.obj [("content", .str (so ++ se)),
                  ("is_error", .bool (!(se == ""))),
                  ("interrupted", itr)]) := by
  have hsc := sideChannelEntry_eq htr (strField_ok hso) (strField_ok hse) hitr
  cases hty : lookupKey kvs "type" with
  | none => simp [parseMessage, parseMessageE, pyGet, except_bind_ok, hty] at hparse
  | some j =>
    cases j with
    | str t =>
      by_cases hua : t = "user" ∨ t = "assistant"
      · cases hec : extractMsgContent kvs with
        | error e =>
          simp [parseMessage, parseMessageE, pyGet, except_bind_ok, except_bind_error,
            hty, hua, hec] at hparse
        | ok triple =>
          simp only [parseMessage, parseMessageE, pyGet, except_bind_ok, hty, hec, hsc] at hparse
          rw [if_pos (by simpa using hua)] at hparse
          rw [Option.some.injEq] at hparse
          subst hparse
          simp
      · simp [parseMessage, parseMessageE, pyGet, except_bind_ok, hty, hua] at hparse
    | null => simp [parseMessage, parseMessageE, pyGet, except_bind_ok, hty] at hparse
    | bool b => simp [parseMessage, parseMessageE, pyGet, except_bind_ok, hty] at hparse
    | num q => simp [parseMessage, parseMessageE, pyGet, except_bind_ok, hty] at hparse
    | arr xs => simp [parseMessage, parseMessageE, pyGet, except_bind_ok, hty] at hparse
    | obj kvs2 => simp [parseMessage, parseMessageE, pyGet, except_bind_ok, hty] at hparse

/-- Record fields of a demo record carrying a `toolUseResult` side
channel. -/
def demoTURKvs : List (String × Json) :=
  [("type", .str "user"),
   ("toolUseResult", .obj [("stdout", .str "out"), ("stderr", .str "err")])]

/-- Fallback message used to extract parsed values in witnesses. -/
def fallbackMessage : ConversationMessage :=
  { uuid := .null, timestamp := .null, message_type := "", content := "",
    tool_uses := [], tool_results := [], session_id := .null,
    parent_uuid := none, cwd := .null, git_branch := .null }

/-- Witness for C8 at a concrete record. -/
theorem side_channel_folded_witness :
    ((parseMessage (.obj demoTURKvs)).getD fallbackMessage).tool_results.getLast? =
      some (.obj [("content", .str ("out" ++ "err")),
                  ("is_error", .bool (!("err" == ""))),
                  ("interrupted", .bool false)]) :=
  side_channel_folded_into_tool_results demoTURKvs
    ((parseMessage (.obj demoTURKvs)).getD fallbackMessage)
    (.obj [("stdout", .str "out"), ("stderr", .str "err")]) (.bool false) "out" "err"
    rfl rfl rfl rfl rfl

end ConvProc

namespace ConvProc

/-- Does the record carry `type` equal to `"user"` or `"assistant"`
(the gate of `_parse_message`, line 107)? -/
def isUserOrAssistant (data : Json) : Bool :=
  match data with
  | .obj kvs =>
    match lookupKey kvs "type" with
    | some (.str t) => t == "user" || t == "assistant"
    | _ => false
  | _ => false

/-- A content block the extraction loop accepts without a type error:
a text block must carry a string (or no) `text` field; everything else
is handled with defaults. -/
def textBlockOk (item : Json) : Bool :=
  match item with
  | .obj kvs =>
    if isTypeTag kvs "text" then
      match (lookupKey kvs "text").getD (.str "") with
      | .str _ => true
      | _ => false
    else true
  | _ => true

/-- A `message` field the extraction accepts without a type error. -/
def msgContentOk (msg : Json) : Bool :=
  match msg with
  | .obj kvs =>
    match lookupKey kvs "content" with
    | none => true
    | some (.arr items) => items.all textBlockOk
    | some _ => true
  | .str s => !strContains s "content"
  | .arr xs => !(xs.any (fun x => match x with | .str t => t == "content" | _ => false))
  | _ => false

/-- A `toolUseResult` field the side-channel fold accepts: an object
whose `stdout` and `stderr` are strings or absent. -/
def sideChannelOk (tr : Json) : Bool :=
  match tr with
  | .obj kvs =>
    (match lookupKey kvs "stdout" with
     | none => true
     | some (.str _) => true
     | some _ => false) &&
    (match lookupKey kvs "stderr" with
     | none => true
     | some (.str _) => true
     | some _ => false)
  | _ => false

/-- A record shape `_parse_message` accepts without raising: its
`message` and `toolUseResult` fields (when present) have the shapes the
extraction code expects. -/
def goodShape (data : Json) : Bool :=
  match data with
  | .obj kvs =>
    (match lookupKey kvs "message" with
     | none => true
     | some msg => msgContentOk msg) &&
    (match lookupKey kvs "toolUseResult" with
     | none => true
     | some tr => sideChannelOk tr)
  | _ => false

theorem lookupKey_isSome (kvs : List (String × Json)) (k : String) :
    (kvs.any (fun kv => kv.1 == k)) = (lookupKey kvs k).isSome := by
  induction kvs with
  | nil => rfl
  | cons kv rest ih =>
    simp only [List.any_cons, lookupKey, List.find?_cons]
    cases hb : (kv.1 == k) with
    | true => simp [hb]
    | false => simpa [hb, lookupKey] using ih

theorem contentStep_ok (acc : String × List Json × List Json) (item : Json)
    (h : textBlockOk item = true) : ∃ r, contentStep acc item = .ok r := by
  cases item with
  | obj ikvs =>
    simp only [textBlockOk] at h
    simp only [contentStep]
    by_cases ht : isTypeTag ikvs "text" = true
    · rw [if_pos ht] at h ⊢
      cases hv : (lookupKey ikvs "text").getD (.str "") with
      | str s => exact ⟨(acc.1 ++ s, acc.2.1, acc.2.2), rfl⟩
      | null => rw [hv] at h; exact Bool.noConfusion h
      | bool b => rw [hv] at h; exact Bool.noConfusion h
      | num q => rw [hv] at h; exact Bool.noConfusion h
      | arr xs => rw [hv] at h; exact Bool.noConfusion h
      | obj kvs2 => rw [hv] at h; exact Bool.noConfusion h
    · rw [if_neg ht]
      by_cases h2 : isTypeTag ikvs "tool_use" = true
      · rw [if_pos h2]; exact ⟨_, rfl⟩
      · rw [if_neg h2]
        by_cases h3 : isTypeTag ikvs "tool_result" = true
        · rw [if_pos h3]; exact ⟨_, rfl⟩
        · rw [if_neg h3]; exact ⟨_, rfl⟩
  | null => exact ⟨acc, rfl⟩
  | bool b => exact ⟨acc, rfl⟩
  | num q => exact ⟨acc, rfl⟩
  | str s => exact ⟨acc, rfl⟩
  | arr xs => exact ⟨acc, rfl⟩

theorem contentFold_ok (items : List Json) (acc : String × List Json × List Json)
    (h : items.all textBlockOk = true) :
    ∃ r, items.foldlM contentStep acc = .ok r := by
  induction items generalizing acc with
  | nil => exact ⟨acc, rfl⟩
  | cons item rest ih =>
    rw [List.all_cons, Bool.and_eq_true] at h
    obtain ⟨acc2, hacc2⟩ := contentStep_ok acc item h.1
    obtain ⟨r, hr⟩ := ih acc2 h.2
    exact ⟨r, by rw [List.foldlM_cons, hacc2, except_bind_ok, hr]⟩

theorem extractMsgContent_ok (kvs : List (String × Json))
    (h : (match lookupKey kvs "message" with
          | none => true
          | some msg => msgContentOk msg) = true) :
    ∃ r, extractMsgContent kvs = .ok r := by
  unfold extractMsgContent
  cases hm : lookupKey kvs "message" with
  | none => exact ⟨_, rfl⟩
  | some msg =>
    rw [hm] at h
    cases msg with
    | obj mkvs =>
      have h2 : (match lookupKey mkvs "content" with
                 | none => true
                 | some (.arr items) => items.all textBlockOk
                 | some _ => true) = true := h
      simp only [pyContains, except_bind_ok]
      cases hb : (mkvs.any (fun kv => kv.1 == "content")) with
      | false => exact ⟨("", [], []), rfl⟩
      | true =>
        have hcs : (lookupKey mkvs "content").isSome = true := by
          rw [← lookupKey_isSome]; exact hb
        cases hv : lookupKey mkvs "content" with
        | none => rw [hv] at hcs; exact Bool.noConfusion hcs
        | some c =>
          rw [if_pos (show (true = true) from rfl)]
          simp only [pyIndex, hv, except_bind_ok]
          cases c with
          | arr items =>
            rw [hv] at h2
            exact contentFold_ok items _ h2
          | str s => exact ⟨_, rfl⟩
          | null => exact ⟨_, rfl⟩
          | bool b => exact ⟨_, rfl⟩
          | num q => exact ⟨_, rfl⟩
          | obj kvs2 => exact ⟨_, rfl⟩
    | str s =>
      have h2 : (!strContains s "content") = true := h
      have hs : strContains s "content" = false := by
        cases hb : strContains s "content" with
        | true => rw [hb] at h2; exact Bool.noConfusion h2
        | false => rfl
      exact ⟨("", [], []), by simp [pyContains, except_bind_ok, hs]⟩
    | arr xs =>
      have h2 : (!(xs.any (fun x => match x with | .str t => t == "content" | _ => false))) = true := h
      have hs : (xs.any (fun x => match x with | .str t => t == "content" | _ => false)) = false := by
        cases hb : (xs.any (fun x => match x with | .str t => t == "content" | _ => false)) with
        | true => rw [hb] at h2; exact Bool.noConfusion h2
        | false => rfl
      exact ⟨("", [], []), by simp [pyContains, except_bind_ok, hs]⟩
    | null => exact Bool.noConfusion (h : false = true)
    | bool b => exact Bool.noConfusion (h : false = true)
    | num q => exact Bool.noConfusion (h : false = true)

theorem sideChannelEntry_ok (kvs : List (String × Json))
    (h : (match lookupKey kvs "toolUseResult" with
          | none => true
          | some tr => sideChannelOk tr) = true) :
    ∃ y, sideChannelEntry kvs = .ok y := by
  unfold sideChannelEntry
  cases ht : lookupKey kvs "toolUseResult" with
  | none => exact ⟨none, rfl⟩
  | some tr =>
    rw [ht] at h
    cases tr with
    | obj tkvs =>
      have h2 : ((match lookupKey tkvs "stdout" with
                  | none => true
                  | some (.str _) => true
                  | some _ => false) &&
                 (match lookupKey tkvs "stderr" with
                  | none => true
                  | some (.str _) => true
                  | some _ => false)) = true := h
      rw [Bool.and_eq_true] at h2
      have hso : ∃ s1 : String, (lookupKey tkvs "stdout").getD (.str "") = .str s1 := by
        have h3 := h2.1
        cases hvo : lookupKey tkvs "stdout" with
        | none => exact ⟨"", rfl⟩
        | some v =>
          rw [hvo] at h3
          cases v with
          | str s1 => exact ⟨s1, rfl⟩
          | null => exact Bool.noConfusion h3
          | bool b => exact Bool.noConfusion h3
          | num q => exact Bool.noConfusion h3
          | arr xs => exact Bool.noConfusion h3
          | obj o => exact Bool.noConfusion h3
      have hse : ∃ s2 : String, (lookupKey tkvs "stderr").getD (.str "") = .str s2 := by
        have h3 := h2.2
        cases hve : lookupKey tkvs "stderr" with
        | none => exact ⟨"", rfl⟩
        | some v =>
          rw [hve] at h3
          cases v with
          | str s2 => exact ⟨s2, rfl⟩
          | null => exact Bool.noConfusion h3
          | bool b => exact Bool.noConfusion h3
          | num q => exact Bool.noConfusion h3
          | arr xs => exact Bool.noConfusion h3
          | obj o => exact Bool.noConfusion h3
      obtain ⟨s1, h1⟩ := hso
      obtain ⟨s2, h2b⟩ := hse
      exact ⟨some (.obj [("content", .str (s1 ++ s2)),
                         ("is_error", .bool (!isEmptyStr (.str s2))),
                         ("interrupted", (lookupKey tkvs "interrupted").getD (.bool false))]),
        by simp [pyGetD, pyGet, Except.map, except_bind_ok, h1, h2b, pyAdd]⟩
    | null => exact Bool.noConfusion (h : false = true)
    | bool b => exact Bool.noConfusion (h : false = true)
    | num q => exact Bool.noConfusion (h : false = true)
    | str s => exact Bool.noConfusion (h : false = true)
    | arr xs => exact Bool.noConfusion (h : false = true)

theorem parseMessage_gate (data : Json) (h : isUserOrAssistant data = false) :
    parseMessage data = none := by
  cases data with
  | obj kvs =>
    have h0 : (match lookupKey kvs "type" with
               | some (.str t) => t == "user" || t == "assistant"
               | _ => false) = false := h
    cases hty : lookupKey kvs "type" with
    | none => simp [parseMessage, parseMessageE, pyGet, except_bind_ok, hty]
    | some j =>
      rw [hty] at h0
      cases j with
      | str t =>
        have hne : ¬(t = "user" ∨ t = "assistant") := by
          simp only [Bool.or_eq_false_iff, beq_eq_false_iff_ne] at h0
          rintro (rfl | rfl)
          · exact h0.1 rfl
          · exact h0.2 rfl
        simp [parseMessage, parseMessageE, pyGet, except_bind_ok, hty, hne]
      | null => simp [parseMessage, parseMessageE, pyGet, except_bind_ok, hty]
      | bool b => simp [parseMessage, parseMessageE, pyGet, except_bind_ok, hty]
      | num q => simp [parseMessage, parseMessageE, pyGet, except_bind_ok, hty]
      | arr xs => simp [parseMessage, parseMessageE, pyGet, except_bind_ok, hty]
      | obj o => simp [parseMessage, parseMessageE, pyGet, except_bind_ok, hty]
  | null => rfl
  | bool b => rfl
  | num q => rfl
  | str s => rfl
  | arr xs => rfl

theorem parseMessage_isSome (data : Json) (hua : isUserOrAssistant data = true)
    (hgs : goodShape data = true) : (parseMessage data).isSome = true := by
  cases data with
  | obj kvs =>
    have hua0 : (match lookupKey kvs "type" with
                 | some (.str t) => t == "user" || t == "assistant"
                 | _ => false) = true := hua
    have hgs0 : ((match lookupKey kvs "message" with
                  | none => true
                  | some msg => msgContentOk msg) &&
                 (match lookupKey kvs "toolUseResult" with
                  | none => true
                  | some tr => sideChannelOk tr)) = true := hgs
    rw [Bool.and_eq_true] at hgs0
    obtain ⟨r, hec⟩ := extractMsgContent_ok kvs hgs0.1
    obtain ⟨y, hsc⟩ := sideChannelEntry_ok kvs hgs0.2
    cases hty : lookupKey kvs "type" with
    | none => rw [hty] at hua0; exact Bool.noConfusion hua0
    | some j =>
      rw [hty] at hua0
      cases j with
      | str t =>
        simp [parseMessage, parseMessageE, pyGet, except_bind_ok, hty, hec, hsc,
          if_pos (show t = "user" ∨ t = "assistant" by simpa using hua0)]
      | null => exact Bool.noConfusion hua0
      | bool b => exact Bool.noConfusion hua0
      | num q => exact Bool.noConfusion hua0
      | arr xs => exact Bool.noConfusion hua0
      | obj o => exact Bool.noConfusion hua0
  | null => exact Bool.noConfusion (hua : false = true)
  | bool b => exact Bool.noConfusion (hua : false = true)
  | num q => exact Bool.noConfusion (hua : false = true)
  | str s => exact Bool.noConfusion (hua : false = true)
  | arr xs => exact Bool.noConfusion (hua : false = true)

end ConvProc

namespace ConvProc

/-- C3 (amended) — `parse_jsonl_file` collects, in file order, exactly
the Messages produced by `_parse_message` on the decodable lines (blank
and malformed lines are skipped without aborting); a record whose `type`
is not `user`/`assistant` yields no Message; and a `user`/`assistant`
record whose `message` and `toolUseResult` fields are well-shaped is
guaranteed to yield a Message. Well-shapedness is sufficient, not
necessary: some records outside it still parse (e.g. numeric
stdout/stderr, which Python adds without raising), while others raise
inside `_parse_message` and are skipped — the counterexample exhibits
one (`toolUseResult` not an object). -/
theorem parse_totality_order_and_gate (parts : List String) (stem fp : String)
    (lines : List String) :
    (match parse_jsonl_file parts stem fp lines with
     | none => lines.filterMap (fun l => (jsonOfLine l).bind parseMessage) = []
     | some s => s.messages = lines.filterMap (fun l => (jsonOfLine l).bind parseMessage)) ∧
      (∀ data : Json, isUserOrAssistant data = false → parseMessage data = none) ∧
      (∀ data : Json, isUserOrAssistant data = true → goodShape data = true →
        (parseMessage data).isSome = true) := by
  refine ⟨?_, fun d h => parseMessage_gate d h, fun d h1 h2 => parseMessage_isSome d h1 h2⟩
  have hL := parseLoop_messages lines [] .null
  rw [List.nil_append] at hL
  unfold parse_jsonl_file
  by_cases hemp : (parseLoop lines [] Json.null).1.isEmpty = true
  · rw [if_pos hemp]
    show lines.filterMap (fun l => (jsonOfLine l).bind parseMessage) = []
    rw [← hL]
    simpa using hemp
  · rw [if_neg hemp]
    exact hL

/-- A syntactically valid `user` record whose `toolUseResult` is not an
object: `_parse_message` raises on `.get` and the record is skipped. -/
def badLine : String := "\x7b\"type\":\"user\",\"toolUseResult\":5\x7d"

/-- C3 counterexample — `badLine` is valid JSON with `type = "user"`,
yet a file holding exactly that line yields no Message at all (the
parser reports the exception and skips the record), while the claim
predicts exactly one Message. -/
theorem parse_totality_counterexample :
    (jsonOfLine badLine).isSome = true ∧
      isUserOrAssistant ((jsonOfLine badLine).getD .null) = true ∧
      parse_jsonl_file [] "f" "f" [badLine] = none :=
  ⟨rfl, rfl, rfl⟩

/-- Witness for C3 (amended) at concrete inputs. -/
theorem parse_totality_witness :
    ((parse_jsonl_file [] "f" "f" demoLines).getD fallbackSession).messages =
        demoLines.filterMap (fun l => (jsonOfLine l).bind parseMessage) ∧
      parseMessage (.num 3) = none ∧
      (parseMessage (.obj demoTURKvs)).isSome = true := by
  have h := parse_totality_order_and_gate [] "f" "f" demoLines
  exact ⟨h.1, h.2.1 (.num 3) rfl, h.2.2 (.obj demoTURKvs) rfl rfl⟩

end ConvProc

/-! ## `tools/llm_analyzer.py` -/

namespace LLMA

/-- `Entity` dataclass. Values that come straight out of the parsed
payload keep the dynamic `Json` type. -/
structure Entity where
  id : String
  name : Json
  entity_type : Json
  confidence : Json
  content : Json
  context : Option String
  attributes : List (String × Json)

/-- `Relationship` dataclass of the analyzer. -/
structure Relationship where
  from_entity : Json
  to_entity : Json
  relationship_type : Json
  confidence : Json
  evidence : Json
  attributes : List (String × Json)

/-- `AnalysisResult` dataclass. `analysis_timestamp` holds the
`time.time()` value (`none` models the dataclass default `""`). -/
structure AnalysisResult where
  session_id : String
  message_uuid : String
  entities : List Entity
  relationships : List Relationship
  concepts : Json
  analysis_timestamp : Option ℚ
  model_version : String

/-- The payload `_save_to_cache` writes (and the hit path reads back):
`asdict`/`json` round-tripping of these typed fields is the identity, so
the payload is stored in typed form. -/
structure CacheData where
  entities : List Entity
  relationships : List Relationship
  concepts : Json
  analysis_timestamp : Option ℚ
  model_version : String

/-- One cache file on disk: either valid JSON (as written by
`_save_to_cache`) or bytes that `json.load` rejects (externally
corrupted). -/
inductive CacheFile where
  | invalid : CacheFile
  | valid (d : CacheData) : CacheFile

/-- The analyzer's mutable state: the cache directory, the three
counters, how many external interactions have begun (`envIdx`), a wall
clock, and the start times of the external calls made so far (the
temporal trace used to state the rate-limit claim). -/
structure AnalyzerState where
  cache : List (String × CacheFile)
  totalApiCalls : Nat
  cacheHits : Nat
  analysisErrors : Nat
  envIdx : Nat
  clock : ℚ
  callTimes : List ℚ

/-- One external interaction as the environment resolves it: how long
the call (plus the rest of the iteration) takes, the response text
(`none` = the call raised), and whether the subsequent cache write
succeeds. -/
structure ApiCall where
  duration : ℚ
  outcome : Option String
  saveOk : Bool

/-- Analyzer configuration: `cacheKey` embeds
`hashlib.sha256(x.encode()).hexdigest()[:16]` as an abstract
deterministic function (no claim depends on the hash's internals),
`model` is the fixed model string, `rateLimitDelay` the configured
minimum delay. -/
structure AnalyzerConfig where
  cacheKey : String → String
  model : String
  rateLimitDelay : ℚ

/-- File lookup in the cache directory. -/
def cacheLookup (cache : List (String × CacheFile)) (k : String) : Option CacheFile :=
  (cache.find? (fun kv => kv.1 == k)).map (fun kv => kv.2)

/-- Writing a cache file (overwrite on the same key). -/
def cacheInsert : List (String × CacheFile) → String → CacheFile → List (String × CacheFile)
  | [], k, f => [(k, f)]
  | (k0, f0) :: rest, k, f =>
      if k0 = k then (k0, f) :: rest else (k0, f0) :: cacheInsert rest k f

/-- `_load_from_cache`: when the file exists, `cache_hits` is bumped as
soon as the file opens — before `json.load` runs — so a corrupt file
still counts as a hit although `None` (a miss) is returned. -/
def load_from_cache (cache : List (String × CacheFile)) (hits : Nat) (key : String) :
    Option CacheData × Nat :=
  match cacheLookup cache key with
  | none => (none, hits)
  | some .invalid => (none, hits + 1)
  | some (.valid d) => (some d, hits + 1)

/-- `re.search(r'```json\s*(.*?)\s*```', content, re.DOTALL)`: the text
between the first ` ```json ` fence and the next ` ``` `, whitespace
trimmed. -/
def fencedMatch (s : String) : Option String :=
  match subIdx? s.data ("```json".data) with
  | none => none
  | some i =>
    match subIdx? (s.data.drop (i + 7)) ("```".data) with
    | none => none
    | some j => some (String.mk (pyStripList ((s.data.drop (i + 7)).take j)))

/-- `re.search(r'\{.*\}', content, re.DOTALL)` (greedy): from the first
opening brace to the last closing brace, when the latter comes later. -/
def braceMatch (s : String) : Option String :=
  match s.data.findIdx? (fun c => c = obr) with
  | none => none
  | some i =>
    match s.data.reverse.findIdx? (fun c => c = cbr) with
    | none => none
    | some jr =>
      let j := s.data.length - 1 - jr
      if i < j then some (String.mk ((s.data.drop i).take (j - i + 1))) else none

/-- Lines 195-211: try the fenced block first (no fallback when it
exists but fails to parse), else the brace span; `none` is the
extraction-failure path that returns an empty result. -/
def extractPayload (content : String) : Option Json :=
  match fencedMatch content with
  | some js => jsonParse js
  | none =>
    match braceMatch content with
    | some js => jsonParse js
    | none => none

/-- Lines 215-224: build one `Entity` from a parsed entity dict (a
non-dict raises, matching Python's `.get` on a non-dict). -/
def entityFromData (sid uuid ctx : String) (i : Nat) (ed : Json) : Except Unit Entity := do
  let name ← pyGetD ed "name" (.str "")
  let etype ← pyGetD ed "type" (.str "")
  let conf ← pyGetD ed "confidence" (.num 0)
  let cont ← pyGetD ed "context" (.str "")
  .ok { id := if uuid ≠ "" then sid ++ "_" ++ uuid ++ "_" ++ toString i
              else sid ++ "_" ++ toString i,
        name := name, entity_type := etype, confidence := conf, content := cont,
        context := if ctx ≠ "" then some (ctx.take 200) else none,
        attributes := [] }

/-- Lines 227-235: build one `Relationship` from a parsed dict. -/
def relFromData (rd : Json) : Except Unit Relationship := do
  let f ← pyGetD rd "from" (.str "")
  let t2 ← pyGetD rd "to" (.str "")
  let ty ← pyGetD rd "type" (.str "")
  let conf ← pyGetD rd "confidence" (.num 0)
  let ev ← pyGetD rd "evidence" (.str "")
  .ok { from_entity := f, to_entity := t2, relationship_type := ty,
        confidence := conf, evidence := ev, attributes := [] }

/-- Lines 213-242: normalize the parsed payload into typed entities,
relationships and concepts; any dynamic failure is an exception caught
by the enclosing handler. -/
def normalizePayload (parsed : Json) (sid uuid ctx : String) :
    Except Unit (List Entity × List Relationship × Json) := do
  let entsJ ← pyGetD parsed "entities" (.arr [])
  let items ← pyIter entsJ
  let ents ← items.enum.mapM (fun p => entityFromData sid uuid ctx p.1 p.2)
  let relsJ ← pyGetD parsed "relationships" (.arr [])
  let ritems ← pyIter relsJ
  let rels ← ritems.mapM relFromData
  let concepts ← pyGetD parsed "concepts" (.arr [])
  .ok (ents, rels, concepts)

/-- The empty `AnalysisResult` carrying only the identifiers. -/
def emptyResult (sid uuid : String) : AnalysisResult :=
  { session_id := sid, message_uuid := uuid, entities := [], relationships := [],
    concepts := .arr [], analysis_timestamp := none, model_version := "" }

/-- `analyze_message`. The prompt construction is folded into the
environment (the oracle is indexed by the number of interactions begun);
`time.sleep(delay)` advances the clock by the delay, the call itself by
its duration. Branches, in source order: the short-content gate (157),
the cache hit (165-174), the exception path of `messages.create`
(259-262), the no-JSON / JSON-parse-error returns (195-211), the
exception path of normalization (259-262), and the success path with
the cache write (237-257). -/
def analyze_message (cfg : AnalyzerConfig) (env : Nat → ApiCall) (st : AnalyzerState)
    (content ctx sid uuid : String) : AnalysisResult × AnalyzerState :=
  if content = "" ∨ (pyStrip content).length < 20 then
    (emptyResult sid uuid, st)
  else
    match load_from_cache st.cache st.cacheHits (cfg.cacheKey (content ++ ctx)) with
    | (some d, hits2) =>
      ({ session_id := sid, message_uuid := uuid, entities := d.entities,
         relationships := d.relationships, concepts := d.concepts,
         analysis_timestamp := d.analysis_timestamp,
         model_version := d.model_version },
       { st with cacheHits := hits2 })
    | (none, hits2) =>
      match (env st.envIdx).outcome with
      | none =>
        (emptyResult sid uuid,
         { st with cacheHits := hits2,
                   envIdx := st.envIdx + 1,
                   clock := st.clock + cfg.rateLimitDelay + (env st.envIdx).duration,
                   callTimes := st.callTimes ++ [st.clock + cfg.rateLimitDelay],
                   analysisErrors := st.analysisErrors + 1 })
      | some resp =>
        match extractPayload resp with
        | none =>
          (emptyResult sid uuid,
           { st with cacheHits := hits2,
                     envIdx := st.envIdx + 1,
                     clock := st.clock + cfg.rateLimitDelay + (env st.envIdx).duration,
                     callTimes := st.callTimes ++ [st.clock + cfg.rateLimitDelay],
                     totalApiCalls := st.totalApiCalls + 1 })
        | some parsed =>
          match normalizePayload parsed sid uuid ctx with
          | .error _ =>
            (emptyResult sid uuid,
             { st with cacheHits := hits2,
                       envIdx := st.envIdx + 1,
                       clock := st.clock + cfg.rateLimitDelay + (env st.envIdx).duration,
                       callTimes := st.callTimes ++ [st.clock + cfg.rateLimitDelay],
                       totalApiCalls := st.totalApiCalls + 1,
                       analysisErrors := st.analysisErrors + 1 })
          | .ok (ents, rels, concepts) =>
            ({ session_id := sid, message_uuid := uuid, entities := ents,
               relationships := rels, concepts := concepts,
               analysis_timestamp := some (st.clock + cfg.rateLimitDelay + (env st.envIdx).duration),
               model_version := cfg.model },
             { st with cacheHits := hits2,
                       envIdx := st.envIdx + 1,
                       clock := st.clock + cfg.rateLimitDelay + (env st.envIdx).duration,
                       callTimes := st.callTimes ++ [st.clock + cfg.rateLimitDelay],
                       totalApiCalls := st.totalApiCalls + 1,
                       cache := if (env st.envIdx).saveOk
                                then cacheInsert st.cache (cfg.cacheKey (content ++ ctx))
                                  (.valid { entities := ents, relationships := rels,
                                            concepts := concepts,
                                            analysis_timestamp :=
                                              some (st.clock + cfg.rateLimitDelay + (env st.envIdx).duration),
                                            model_version := cfg.model })
                                else st.cache })

/-- One request of a batch run (`analyze_conversation_batch` applies
`analyze_message` to messages strictly sequentially). -/
structure AnalyzeRequest where
  content : String
  ctx : String
  sid : String
  uuid : String

/-- Strictly sequential processing of a list of requests. -/
def runRequests (cfg : AnalyzerConfig) (env : Nat → ApiCall) :
    AnalyzerState → List AnalyzeRequest → AnalyzerState
  | st, [] => st
  | st, r :: rest =>
      runRequests cfg env (analyze_message cfg env st r.content r.ctx r.sid r.uuid).2 rest

end LLMA

namespace LLMA

/-- Concrete configuration for witnesses: the abstract cache-key
function instantiated with the identity. -/
def cfgW : AnalyzerConfig := ⟨fun s => s, "claude-sonnet-4-20250514", 1⟩

/-- A fresh analyzer state. -/
def stFresh : AnalyzerState := ⟨[], 0, 0, 0, 0, 0, []⟩

/-- An environment whose responses carry no JSON at all. -/
def envNoJson : Nat → ApiCall := fun _ => ⟨0, some "no json here", true⟩

/-- An environment whose responses are the JSON text of an empty
object. -/
def envOkEmpty : Nat → ApiCall := fun _ => ⟨0, some "\x7b\x7d", true⟩

/-- A 24-character message content (past the 20-character gate). -/
def content24 : String := "aaaaaaaaaaaaaaaaaaaaaaaa"

/-- A state whose cache holds, under the key of `content24`, a file that
exists but is not valid JSON. -/
def stInvalidCache : AnalyzerState := ⟨[(content24, .invalid)], 0, 0, 0, 0, 0, []⟩

/-- C6 — a content that is empty or shorter than 20 characters returns
the empty `AnalysisResult` (carrying only the identifiers) immediately,
with the state untouched: no cache lookup (`cacheHits`, `cache`
unchanged) and no external call (`envIdx`, `totalApiCalls`, clock and
trace unchanged). -/
theorem analyze_short_circuit (cfg : AnalyzerConfig) (env : Nat → ApiCall)
    (st : AnalyzerState) (content ctx sid uuid : String)
    (h : content = "" ∨ content.length < 20) :
    analyze_message cfg env st content ctx sid uuid = (emptyResult sid uuid, st) := by
  unfold analyze_message
  rw [if_pos]
  rcases h with h | h
  · exact Or.inl h
  · exact Or.inr (lt_of_le_of_lt (pyStrip_length_le content) h)

/-- Witness for C6 at a concrete short content. -/
theorem analyze_short_circuit_witness :
    analyze_message cfgW envOkEmpty stFresh "hi" "" "s" "u" = (emptyResult "s" "u", stFresh) :=
  analyze_short_circuit cfgW envOkEmpty stFresh "hi" "" "s" "u" (Or.inr (by decide))

/-- C10 — a cache file that exists for the requested key but holds
invalid JSON: `_load_from_cache` returns a miss yet still increments
`cache_hits`, and `analyze_message` proceeds to the external call; so
`cache_hits` overcounts the requests actually served from the cache. -/
theorem cache_hits_overcount :
    load_from_cache [(content24, CacheFile.invalid)] 0 content24 = (none, 1) ∧
      (analyze_message cfgW envNoJson stInvalidCache content24 "" "s" "u").2.cacheHits = 1 ∧
      (analyze_message cfgW envNoJson stInvalidCache content24 "" "s" "u").2.totalApiCalls = 1 :=
  ⟨rfl, rfl, rfl⟩

/-- C7 counterexample — on a response with neither a fenced JSON block
nor a brace-delimited JSON object, `analyze_message` returns the empty
result after exactly one external call, but `analysis_errors` stays 0:
the extraction failure is not counted there (the claim says it is). -/
theorem extraction_failure_not_counted :
    (analyze_message cfgW envNoJson stFresh content24 "" "s" "u").1 = emptyResult "s" "u" ∧
      (analyze_message cfgW envNoJson stFresh content24 "" "s" "u").2.analysisErrors = 0 ∧
      (analyze_message cfgW envNoJson stFresh content24 "" "s" "u").2.totalApiCalls = 1 :=
  ⟨rfl, rfl, rfl⟩

/-- C7 (amended) — a response from which no JSON can be extracted yields
the empty `AnalysisResult`, is not retried (exactly one external
interaction), is counted in `total_api_calls`, leaves the cache
unwritten — but `analysis_errors` is NOT incremented (that counter only
counts exceptions, such as the external call itself raising). -/
theorem extraction_failure_empty_uncounted (cfg : AnalyzerConfig) (env : Nat → ApiCall)
    (st : AnalyzerState) (content ctx sid uuid resp : String)
    (hlen : 20 ≤ (pyStrip content).length)
    (hmiss : cacheLookup st.cache (cfg.cacheKey (content ++ ctx)) = none)
    (hresp : (env st.envIdx).outcome = some resp)
    (hfail : extractPayload resp = none) :
    (analyze_message cfg env st content ctx sid uuid).1 = emptyResult sid uuid ∧
      (analyze_message cfg env st content ctx sid uuid).2.analysisErrors = st.analysisErrors ∧
      (analyze_message cfg env st content ctx sid uuid).2.totalApiCalls = st.totalApiCalls + 1 ∧
      (analyze_message cfg env st content ctx sid uuid).2.envIdx = st.envIdx + 1 ∧
      (analyze_message cfg env st content ctx sid uuid).2.cache = st.cache := by
  have hgate : ¬(content = "" ∨ (pyStrip content).length < 20) := by
    rintro (rfl | hlt)
    · exact absurd hlen (by decide)
    · omega
  have hload : load_from_cache st.cache st.cacheHits (cfg.cacheKey (content ++ ctx)) =
      (none, st.cacheHits) := by
    unfold load_from_cache
    rw [hmiss]
  refine ⟨?_, ?_, ?_, ?_, ?_⟩ <;>
    simp only [analyze_message, if_neg hgate, hload, hresp, hfail]

/-- Witness for C7 (amended) at concrete inputs. -/
theorem extraction_failure_empty_uncounted_witness :
    (analyze_message cfgW envNoJson stFresh content24 "" "sw" "uw").1 = emptyResult "sw" "uw" ∧
      (analyze_message cfgW envNoJson stFresh content24 "" "sw" "uw").2.analysisErrors =
        stFresh.analysisErrors ∧
      (analyze_message cfgW envNoJson stFresh content24 "" "sw" "uw").2.totalApiCalls =
        stFresh.totalApiCalls + 1 ∧
      (analyze_message cfgW envNoJson stFresh content24 "" "sw" "uw").2.envIdx =
        stFresh.envIdx + 1 ∧
      (analyze_message cfgW envNoJson stFresh content24 "" "sw" "uw").2.cache = stFresh.cache :=
  extraction_failure_empty_uncounted cfgW envNoJson stFresh content24 "" "sw" "uw"
    "no json here" (by decide) rfl rfl rfl

end LLMA

namespace LLMA

theorem cacheLookup_insert (c : List (String × CacheFile)) (k : String) (v : CacheFile) :
    cacheLookup (cacheInsert c k v) k = some v := by
  induction c with
  | nil => simp [cacheInsert, cacheLookup]
  | cons kv rest ih =>
    obtain ⟨k0, f0⟩ := kv
    by_cases h : k0 = k
    · subst h
      simp [cacheInsert, cacheLookup]
    · have hb : (k0 == k) = false := by simp [h]
      simp only [cacheInsert, if_neg h, cacheLookup, List.find?_cons, hb]
      simpa [cacheLookup] using ih

theorem analyze_miss_success (cfg : AnalyzerConfig) (env : Nat → ApiCall)
    (st : AnalyzerState) (content ctx sid uuid resp : String) (parsed : Json)
    (ents : List Entity) (rels : List Relationship) (concepts : Json)
    (hlen : 20 ≤ (pyStrip content).length)
    (hmiss : cacheLookup st.cache (cfg.cacheKey (content ++ ctx)) = none)
    (hresp : (env st.envIdx).outcome = some resp)
    (hparse : extractPayload resp = some parsed)
    (hnorm : normalizePayload parsed sid uuid ctx = .ok (ents, rels, concepts))
    (hsave : (env st.envIdx).saveOk = true) :
    analyze_message cfg env st content ctx sid uuid =
      ({ session_id := sid, message_uuid := uuid, entities := ents, relationships := rels,
         concepts := concepts,
         analysis_timestamp := some (st.clock + cfg.rateLimitDelay + (env st.envIdx).duration),
         model_version := cfg.model },
       { st with envIdx := st.envIdx + 1,
                 clock := st.clock + cfg.rateLimitDelay + (env st.envIdx).duration,
                 callTimes := st.callTimes ++ [st.clock + cfg.rateLimitDelay],
                 totalApiCalls := st.totalApiCalls + 1,
                 cache := cacheInsert st.cache (cfg.cacheKey (content ++ ctx))
                   (.valid { entities := ents, relationships := rels, concepts := concepts,
                             analysis_timestamp :=
                               some (st.clock + cfg.rateLimitDelay + (env st.envIdx).duration),
                             model_version := cfg.model }) }) := by
  have hgate : ¬(content = "" ∨ (pyStrip content).length < 20) := by
    rintro (rfl | hlt)
    · exact absurd hlen (by decide)
    · omega
  have hload : load_from_cache st.cache st.cacheHits (cfg.cacheKey (content ++ ctx)) =
      (none, st.cacheHits) := by
    unfold load_from_cache
    rw [hmiss]
  simp only [analyze_message, if_neg hgate, hload, hresp, hparse, hnorm, hsave,
    eq_self_iff_true, if_true]

theorem analyze_hit (cfg : AnalyzerConfig) (env : Nat → ApiCall) (st : AnalyzerState)
    (content ctx sid uuid : String) (d : CacheData)
    (hlen : 20 ≤ (pyStrip content).length)
    (hhit : cacheLookup st.cache (cfg.cacheKey (content ++ ctx)) = some (.valid d)) :
    analyze_message cfg env st content ctx sid uuid =
      ({ session_id := sid, message_uuid := uuid, entities := d.entities,
         relationships := d.relationships, concepts := d.concepts,
         analysis_timestamp := d.analysis_timestamp, model_version := d.model_version },
       { st with cacheHits := st.cacheHits + 1 }) := by
  have hgate : ¬(content = "" ∨ (pyStrip content).length < 20) := by
    rintro (rfl | hlt)
    · exact absurd hlen (by decide)
    · omega
  have hload : load_from_cache st.cache st.cacheHits (cfg.cacheKey (content ++ ctx)) =
      (some d, st.cacheHits + 1) := by
    unfold load_from_cache
    rw [hhit]
  simp only [analyze_message, if_neg hgate, hload]

/-- C1 (amended) — for content past the 20-character gate, a key absent
from the cache, a first response with an extractable and normalizable
JSON payload, and a successful cache write: two identical
`(content, context)` calls make exactly one external invocation in
total, the second call is served from the cache (no new interaction,
`cache_hits` bumped), and its `AnalysisResult` is structurally identical
to the first, reconstructed from the cached payload. -/
theorem cache_idempotent_on_success (cfg : AnalyzerConfig) (env : Nat → ApiCall)
    (st : AnalyzerState) (content ctx sid uuid resp : String) (parsed : Json)
    (ents : List Entity) (rels : List Relationship) (concepts : Json)
    (hlen : 20 ≤ (pyStrip content).length)
    (hmiss : cacheLookup st.cache (cfg.cacheKey (content ++ ctx)) = none)
    (hresp : (env st.envIdx).outcome = some resp)
    (hparse : extractPayload resp = some parsed)
    (hnorm : normalizePayload parsed sid uuid ctx = .ok (ents, rels, concepts))
    (hsave : (env st.envIdx).saveOk = true) :
    ((analyze_message cfg env (analyze_message cfg env st content ctx sid uuid).2
        content ctx sid uuid).1 =
      (analyze_message cfg env st content ctx sid uuid).1) ∧
      (analyze_message cfg env st content ctx sid uuid).2.totalApiCalls =
        st.totalApiCalls + 1 ∧
      (analyze_message cfg env (analyze_message cfg env st content ctx sid uuid).2
          content ctx sid uuid).2.totalApiCalls = st.totalApiCalls + 1 ∧
      (analyze_message cfg env (analyze_message cfg env st content ctx sid uuid).2
          content ctx sid uuid).2.envIdx =
        (analyze_message cfg env st content ctx sid uuid).2.envIdx ∧
      (analyze_message cfg env (analyze_message cfg env st content ctx sid uuid).2
          content ctx sid uuid).2.cacheHits =
        (analyze_message cfg env st content ctx sid uuid).2.cacheHits + 1 := by
  have h1 := analyze_miss_success cfg env st content ctx sid uuid resp parsed
    ents rels concepts hlen hmiss hresp hparse hnorm hsave
  have hhit : cacheLookup (analyze_message cfg env st content ctx sid uuid).2.cache
      (cfg.cacheKey (content ++ ctx)) =
      some (.valid { entities := ents, relationships := rels, concepts := concepts,
                     analysis_timestamp :=
                       some (st.clock + cfg.rateLimitDelay + (env st.envIdx).duration),
                     model_version := cfg.model }) := by
    rw [h1]
    exact cacheLookup_insert st.cache (cfg.cacheKey (content ++ ctx)) _
  have h2 := analyze_hit cfg env (analyze_message cfg env st content ctx sid uuid).2
    content ctx sid uuid _ hlen hhit
  refine ⟨?_, ?_, ?_, ?_, ?_⟩
  · rw [h2, h1]
  · rw [h1]
  · rw [h2, h1]
  · rw [h2]
  · rw [h2]

/-- C1 counterexample — when the first call's response carries no JSON,
nothing is cached and the second identical call invokes the external
capability again: the two calls make two external invocations, not
exactly one as the claim states. -/
theorem cache_idempotence_counterexample :
    (analyze_message cfgW envNoJson
        (analyze_message cfgW envNoJson stFresh content24 "" "s" "u").2
        content24 "" "s" "u").2.totalApiCalls = 2 ∧
      ¬((analyze_message cfgW envNoJson
          (analyze_message cfgW envNoJson stFresh content24 "" "s" "u").2
          content24 "" "s" "u").2.totalApiCalls = 1) :=
  ⟨rfl, by decide⟩

/-- Witness for C1 (amended) at concrete inputs. -/
theorem cache_idempotent_on_success_witness :
    ((analyze_message cfgW envOkEmpty (analyze_message cfgW envOkEmpty stFresh content24 "" "s" "u").2
        content24 "" "s" "u").1 =
      (analyze_message cfgW envOkEmpty stFresh content24 "" "s" "u").1) ∧
      (analyze_message cfgW envOkEmpty stFresh content24 "" "s" "u").2.totalApiCalls =
        stFresh.totalApiCalls + 1 ∧
      (analyze_message cfgW envOkEmpty (analyze_message cfgW envOkEmpty stFresh content24 "" "s" "u").2
          content24 "" "s" "u").2.totalApiCalls = stFresh.totalApiCalls + 1 ∧
      (analyze_message cfgW envOkEmpty (analyze_message cfgW envOkEmpty stFresh content24 "" "s" "u").2
          content24 "" "s" "u").2.envIdx =
        (analyze_message cfgW envOkEmpty stFresh content24 "" "s" "u").2.envIdx ∧
      (analyze_message cfgW envOkEmpty (analyze_message cfgW envOkEmpty stFresh content24 "" "s" "u").2
          content24 "" "s" "u").2.cacheHits =
        (analyze_message cfgW envOkEmpty stFresh content24 "" "s" "u").2.cacheHits + 1 :=
  cache_idempotent_on_success cfgW envOkEmpty stFresh content24 "" "s" "u" "\x7b\x7d"
    (.obj []) [] [] (.arr []) (by decide) rfl rfl rfl rfl rfl

end LLMA

namespace LLMA

/-- Every branch of `analyze_message` either leaves the clock and call
trace untouched (gate or cache hit) or — on the miss path — sleeps the
configured delay, records the call start, and then advances the clock by
the interaction's duration. -/
theorem analyze_callTimes_clock (cfg : AnalyzerConfig) (env : Nat → ApiCall)
    (st : AnalyzerState) (content ctx sid uuid : String) :
    ((analyze_message cfg env st content ctx sid uuid).2.callTimes = st.callTimes ∧
      (analyze_message cfg env st content ctx sid uuid).2.clock = st.clock) ∨
    ((analyze_message cfg env st content ctx sid uuid).2.callTimes =
        st.callTimes ++ [st.clock + cfg.rateLimitDelay] ∧
      (analyze_message cfg env st content ctx sid uuid).2.clock =
        st.clock + cfg.rateLimitDelay + (env st.envIdx).duration) := by
  by_cases hgate : (content = "" ∨ (pyStrip content).length < 20)
  · refine Or.inl ⟨?_, ?_⟩ <;> simp only [analyze_message, if_pos hgate]
  · rcases hld : load_from_cache st.cache st.cacheHits (cfg.cacheKey (content ++ ctx))
      with ⟨o, hits2⟩
    cases o with
    | some d =>
      refine Or.inl ⟨?_, ?_⟩ <;> simp only [analyze_message, if_neg hgate, hld]
    | none =>
      cases ho : (env st.envIdx).outcome with
      | none =>
        refine Or.inr ⟨?_, ?_⟩ <;> simp only [analyze_message, if_neg hgate, hld, ho]
      | some resp =>
        cases hx : extractPayload resp with
        | none =>
          refine Or.inr ⟨?_, ?_⟩ <;> simp only [analyze_message, if_neg hgate, hld, ho, hx]
        | some parsed =>
          rcases hn : normalizePayload parsed sid uuid ctx with e | ⟨ents, rels, concepts⟩
          · refine Or.inr ⟨?_, ?_⟩ <;> simp only [analyze_message, if_neg hgate, hld, ho, hx, hn]
          · refine Or.inr ⟨?_, ?_⟩ <;> simp only [analyze_message, if_neg hgate, hld, ho, hx, hn]

theorem analyze_preserves_inv (cfg : AnalyzerConfig) (env : Nat → ApiCall)
    (st : AnalyzerState) (content ctx sid uuid : String)
    (hdelay : 0 ≤ cfg.rateLimitDelay) (hdur : ∀ n, 0 ≤ (env n).duration)
    (hchain : List.Chain' (fun a b => a + cfg.rateLimitDelay ≤ b) st.callTimes)
    (hle : ∀ t ∈ st.callTimes, t ≤ st.clock) :
    List.Chain' (fun a b => a + cfg.rateLimitDelay ≤ b)
        (analyze_message cfg env st content ctx sid uuid).2.callTimes ∧
      ∀ t ∈ (analyze_message cfg env st content ctx sid uuid).2.callTimes,
        t ≤ (analyze_message cfg env st content ctx sid uuid).2.clock := by
  rcases analyze_callTimes_clock cfg env st content ctx sid uuid with
    ⟨hct, hck⟩ | ⟨hct, hck⟩
  · rw [hct, hck]
    exact ⟨hchain, hle⟩
  · rw [hct, hck]
    constructor
    · rw [List.chain'_append]
      refine ⟨hchain, List.chain'_singleton _, ?_⟩
      intro x hx y hy
      simp only [List.head?_cons, Option.mem_def, Option.some.injEq] at hy
      subst hy
      have hxm : x ∈ st.callTimes := by
        rcases List.mem_getLast?_eq_getLast hx with ⟨hne, hxe⟩
        rw [hxe]
        exact List.getLast_mem hne
      have := hle x hxm
      linarith
    · intro t ht
      rcases List.mem_append.mp ht with h1 | h2
      · have := hle t h1
        have hd := hdur st.envIdx
        linarith
      · simp only [List.mem_singleton] at h2
        subst h2
        have hd := hdur st.envIdx
        linarith

/-- C9 — over any strictly sequential run, successive external-call
start times are separated by at least the configured rate-limit delay:
the sleep is applied before every external invocation on the miss path,
and the clock never runs backwards. -/
theorem rate_limit_invariant (cfg : AnalyzerConfig) (env : Nat → ApiCall)
    (st : AnalyzerState) (reqs : List AnalyzeRequest)
    (hdelay : 0 ≤ cfg.rateLimitDelay) (hdur : ∀ n, 0 ≤ (env n).duration)
    (hinit : st.callTimes = []) :
    List.Chain' (fun a b => a + cfg.rateLimitDelay ≤ b)
      (runRequests cfg env st reqs).callTimes := by
  suffices H : ∀ (rs : List AnalyzeRequest) (s : AnalyzerState),
      List.Chain' (fun a b => a + cfg.rateLimitDelay ≤ b) s.callTimes →
      (∀ t ∈ s.callTimes, t ≤ s.clock) →
      List.Chain' (fun a b => a + cfg.rateLimitDelay ≤ b)
          (runRequests cfg env s rs).callTimes ∧
        ∀ t ∈ (runRequests cfg env s rs).callTimes, t ≤ (runRequests cfg env s rs).clock by
    refine (H reqs st ?_ ?_).1
    · rw [hinit]
      exact List.chain'_nil
    · rw [hinit]
      intro t ht
      cases ht
  intro rs
  induction rs with
  | nil => intro s h1 h2; exact ⟨h1, h2⟩
  | cons r rest ih =>
    intro s h1 h2
    obtain ⟨h1', h2'⟩ := analyze_preserves_inv cfg env s r.content r.ctx r.sid r.uuid
      hdelay hdur h1 h2
    exact ih _ h1' h2'

/-- Witness for C9: a concrete two-request run satisfies the
separation. -/
theorem rate_limit_invariant_witness :
    List.Chain' (fun a b => a + cfgW.rateLimitDelay ≤ b)
      (runRequests cfgW envOkEmpty stFresh
        [⟨content24, "", "s", "u1"⟩, ⟨"bbbbbbbbbbbbbbbbbbbbbbbb", "", "s", "u2"⟩]).callTimes :=
  rate_limit_invariant cfgW envOkEmpty stFresh
    [⟨content24, "", "s", "u1"⟩, ⟨"bbbbbbbbbbbbbbbbbbbbbbbb", "", "s", "u2"⟩]
    (by norm_num [cfgW]) (fun n => le_refl 0) rfl

end LLMA
